import Mathlib

/-!
Verification development for the Limeplot survey-analysis script
(src/Limeplot.py).  The definitions below are a shallow embedding of the
algorithmic core of that script: the referral-chain seed grouper
(filter_rows_by_seed) and the four convergence/tally aggregation variants
(plot_convergence_radio, plot_convergence_checkbox,
plot_convergence_numerical, plot_array_boxes).

Modelling conventions:
- Python lists of strings become List String; a response table is a header
  row followed by data rows, List (List String).
- Python sets of strings become lists used up to membership; set.add is
  setAdd, which inserts only when the element is absent.
- Python float arithmetic on percentages is modelled with Rat; the only
  float operations the claims touch are division and the constant 0.0,
  which Rat represents exactly.
- A raised Python exception (ValueError from list.index, ZeroDivisionError
  from an unguarded division, max() of an empty list) is modelled by
  Option: none is the raised error, some is normal return.
- out-of-range list access response[i] on same-length rows is modelled by
  List.getD with default "".
-/

/-- Python list.index for strings: index of the first occurrence, or none
when the element is absent (list.index raises ValueError there). -/
def indexRaise (x : String) : List String → Option Nat
  | [] => none
  | a :: as => if a = x then some 0 else (indexRaise x as).map (· + 1)

/-- Python list.index where the caller relies on the element being present
(header.index of the ref and unique columns); absent gives the list length. -/
def listIndexD (x : String) (l : List String) : Nat :=
  (indexRaise x l).getD l.length

/-- The guarded percentage used by the radio, checkbox and numerical
variants: percent is initialised to 0.0 and the division float(t)/total is
attempted, with ZeroDivisionError swallowed, leaving 0.0. -/
def pctGuard (t total : Rat) : Rat :=
  if total = 0 then 0 else t / total

/-- Python float() applied to a nonnegative integer tally entry. -/
def natRat (n : Nat) : Rat := n

/-- Python float() applied to an integer tally entry. -/
def intRat (n : Int) : Rat := n

/-- One iteration of the shared inner loop body: try lines[index].append(p),
and on IndexError append a fresh series [0.0, p] at the end of lines. -/
def pushLine (lines : List (List Rat)) (index : Nat) (p : Rat) : List (List Rat) :=
  if index < lines.length then lines.set index (lines.getD index [] ++ [p])
  else lines ++ [[0, p]]

/-- The shared inner loop of the three trajectory variants: walk the tally
with a running index, pushing each running share onto the matching series. -/
def appendLoop (tally : List Rat) (total : Rat) (index : Nat)
    (lines : List (List Rat)) : List (List Rat) :=
  match tally with
  | [] => lines
  | t :: ts => appendLoop ts total (index + 1) (pushLine lines index (pctGuard t total))

/-- Python set.add on the list model of a set: no-op when already present. -/
def setAdd (s : List String) (x : String) : List String :=
  if x ∈ s then s else s ++ [x]

/-- The body of the seed-set population step once ref and unique have been
read and unique has length 4.  The Python loop adds unique to every
existing set containing ref and sets the added flag; when no set contains
ref a fresh two-element set is appended. -/
def seedStepCore (sets : List (List String)) (ref unique : String) :
    List (List String) :=
  if ∃ s ∈ sets, ref ∈ s then
    sets.map (fun s => if ref ∈ s then setAdd s unique else s)
  else
    sets ++ [[ref, unique]]

/-- One row of the seed-set population loop of filter_rows_by_seed: read
the ref and unique cells, skip the row when unique is not exactly 4
characters, otherwise run the core step. -/
def seedRowStep (refIdx uniqueIdx : Nat) (sets : List (List String))
    (row : List String) : List (List String) :=
  let ref := row.getD refIdx ""
  let unique := row.getD uniqueIdx ""
  if unique.length ≠ 4 then sets
  else seedStepCore sets ref unique

/-- The seed-set population loop of filter_rows_by_seed over all data rows,
starting from the empty sequence of candidate sets. -/
def buildSeedSets (refIdx uniqueIdx : Nat) (rows : List (List String)) :
    List (List String) :=
  rows.foldl (seedRowStep refIdx uniqueIdx) []

/-- filter_rows_by_seed from src/Limeplot.py: locate the ref and unique
columns in the header, build the candidate seed sets, then answer the
query.  For the wildcard seed, walk the sets in creation order and, for
every set that does not intersect the configured main seeds, append every
data row whose ref lies in that set.  Otherwise find the first set
containing the seed (the Python loop breaks after it) and return the rows
whose ref lies in it; with no such set only the header is returned. -/
def filter_rows_by_seed (main_seeds : List String) (seed : String)
    (responses : List (List String)) : List (List String) :=
  match responses with
  | [] => []
  | header :: rows =>
    let refIdx := listIndexD "ref" header
    let uniqueIdx := listIndexD "unique" header
    let seedSets := buildSeedSets refIdx uniqueIdx rows
    if seed = "*" then
      header :: seedSets.foldl (fun acc s =>
        if s.inter main_seeds = [] then
          acc ++ rows.filter (fun r => decide (r.getD refIdx "" ∈ s))
        else acc) []
    else
      match seedSets.find? (fun s => decide (seed ∈ s)) with
      | some s => header :: rows.filter (fun r => decide (r.getD refIdx "" ∈ s))
      | none => [header]

/-- Insertion into a string list sorted by the string order. -/
def insertSorted (x : String) : List String → List String
  | [] => [x]
  | a :: as => if x ≤ a then x :: a :: as else a :: insertSorted x as

/-- Python list.sort on the answer-code list. -/
def sortStrings : List String → List String
  | [] => []
  | a :: as => insertSorted a (sortStrings as)

/-- The answer domain computed by plot_convergence_radio: the literal pair
M, F for the gender type, otherwise the sorted catalog codes, extended
with the blank sentinel when the question is not mandatory or has a
write-in option. -/
def answerDomain (qtype : String) (codes : List String)
    (mandatory other : Bool) : List String :=
  let ans := if qtype = "G" then ["M", "F"] else sortStrings codes
  if !mandatory || other then ans ++ [""] else ans

/-- One row of the radio tally loop: tally[answers.index(value)] += 1 (a
ValueError on an unknown value aborts the whole computation), then push
each tally entry share of the running total onto its series. -/
def radioStep (answers : List String) (st : List Nat × List (List Rat))
    (value : String) : Option (List Nat × List (List Rat)) :=
  match indexRaise value answers with
  | none => none
  | some i =>
    let tally := st.1.set i (st.1.getD i 0 + 1)
    let total : Rat := natRat tally.sum
    some (tally, appendLoop (tally.map natRat) total 0 st.2)

/-- The radio tally loop over the answer cells of the data rows (after
column filtering each data row is read through its first cell), starting
from a zero tally and no series. -/
def radioProcess (answers : List String) (rows : List String) :
    Option (List Nat × List (List Rat)) :=
  rows.foldlM (radioStep answers) (List.replicate answers.length 0, [])

/-- plot_convergence_radio from src/Limeplot.py, with the catalog code list
of the target question and its flags as inputs and the final tally and
series as output.  Legend construction and the matplotlib calls are
rendering, outside the model. -/
def plot_convergence_radio (qtype : String) (codes : List String)
    (mandatory other : Bool) (rows : List String) :
    Option (List Nat × List (List Rat)) :=
  radioProcess (answerDomain qtype codes mandatory other) rows

/-- Whitespace stripped by Python int() around the digits. -/
def isSpaceChar (c : Char) : Bool :=
  c = ' ' || c = '\t' || c = '\n' || c = '\r'

/-- Digit accumulator of the integer parser. -/
def digitsToNat (acc : Nat) : List Char → Option Nat
  | [] => some acc
  | c :: cs =>
    if c.isDigit then digitsToNat (acc * 10 + (c.toNat - 48)) cs else none

/-- One or more decimal digits; anything else is a parse failure. -/
def parseDigits1 : List Char → Option Nat
  | [] => none
  | c :: cs => if c.isDigit then digitsToNat 0 (c :: cs) else none

/-- Python int(s): strip surrounding whitespace, allow one optional sign,
then decimal digits; any other shape raises ValueError, modelled none. -/
def pyInt (s : String) : Option Int :=
  let core := ((s.data.dropWhile isSpaceChar).reverse.dropWhile isSpaceChar).reverse
  match core with
  | '-' :: rest => (parseDigits1 rest).map (fun n => -(n : Int))
  | '+' :: rest => (parseDigits1 rest).map (fun n => (n : Int))
  | l => (parseDigits1 l).map (fun n => (n : Int))

/-- _clean_integer from src/Limeplot.py: int(s) with ValueError recovered
as 0. -/
def clean_integer (s : String) : Int :=
  (pyInt s).getD 0

/-- One row of the checkbox loop: clean each cell into an integer, skip
the row when the cleaned sum is zero, otherwise add the indicator vector
onto the tally componentwise and push the running shares. -/
def checkboxStep (st : List Int × List (List Rat)) (row : List String) :
    List Int × List (List Rat) :=
  let response := row.map clean_integer
  if response.sum = 0 then st
  else
    let tally := (st.1.zip response).map (fun tr => tr.1 + tr.2)
    let total : Rat := intRat tally.sum
    (tally, appendLoop (tally.map intRat) total 0 st.2)

/-- plot_convergence_checkbox from src/Limeplot.py: the output series for
a header row followed by data rows, starting from a zero tally sized by
the header. -/
def plot_convergence_checkbox (responses : List (List String)) :
    List (List Rat) :=
  match responses with
  | [] => []
  | header :: rows =>
    (rows.foldl checkboxStep (List.replicate header.length 0, [])).2

/-- The bucket count computed by plot_convergence_numerical: the observed
maximum clamped to the ceiling 69, minus the floor 10, floor-divided by
the width 5, plus one.  The Python max() of an empty row list raises, so
the empty case never feeds this value (the caller returns none first). -/
def numBucketCount (values : List Int) : Int :=
  match values with
  | [] => 0
  | v :: vs => (min (vs.foldl max v) 69 - 10).fdiv 5 + 1

/-- One row of the numerical loop: values above the ceiling 69 or below
the floor 10 are skipped entirely; otherwise the bucket
(value - 10) / 5 is incremented and the running shares are pushed. -/
def numericStep (st : List Nat × List (List Rat)) (answer : Int) :
    List Nat × List (List Rat) :=
  if answer > 69 ∨ answer < 10 then st
  else
    let bucket_num := ((answer - 10).fdiv 5).toNat
    let tally := st.1.set bucket_num (st.1.getD bucket_num 0 + 1)
    let total : Rat := natRat tally.sum
    (tally, appendLoop (tally.map natRat) total 0 st.2)

/-- plot_convergence_numerical from src/Limeplot.py over the already
extracted integer values int(float(response[0])) of the data rows; max()
of an empty list raises, modelled by none. -/
def plot_convergence_numerical (values : List Int) :
    Option (List Nat × List (List Rat)) :=
  match values with
  | [] => none
  | v :: vs =>
    some ((v :: vs).foldl numericStep
      (List.replicate (numBucketCount (v :: vs)).toNat 0, []))

/-- One cell of the array tally loop: tally[index][answers.index(cell)] += 1,
with the ValueError of an unknown cell aborting the computation. -/
def arrayCellStep (answers : List String) (row : List String)
    (tally : List (List Nat)) (index : Nat) : Option (List (List Nat)) :=
  match indexRaise (row.getD index "") answers with
  | none => none
  | some j =>
    let col := tally.getD index []
    some (tally.set index (col.set j (col.getD j 0 + 1)))

/-- One row of the array tally loop: a row whose blank-cell count equals
the column count is skipped, otherwise every column cell is tallied. -/
def arrayRowStep (answers : List String) (numCols : Nat)
    (tally : List (List Nat)) (row : List String) : Option (List (List Nat)) :=
  if row.count "" = numCols then some tally
  else (List.range numCols).foldlM (arrayCellStep answers row) tally

/-- The percentage row of plot_array_boxes: float(x)/total*100 with no
guard, so a zero column total is a raised ZeroDivisionError, modelled by
none.  The %.1f string formatting of the printed table is rendering and
is left out; the numeric value is kept. -/
def arrayPctRow (t : List Nat) : Option (List Rat) :=
  let total := t.sum
  if total = 0 then none
  else some (t.map (fun x => natRat x / natRat total * 100))

/-- plot_array_boxes from src/Limeplot.py: per header column, tally every
answer code over the non-blank rows, then convert each column tally into
its percentage breakdown.  The input code list is sorted as in the source. -/
def plot_array_boxes (codes : List String) (responses : List (List String)) :
    Option (List (List Rat)) :=
  match responses with
  | [] => none
  | header :: rows =>
    let answers := sortStrings codes
    match rows.foldlM (arrayRowStep answers header.length)
        (header.map (fun _ => List.replicate answers.length 0)) with
    | none => none
    | some tally => tally.mapM arrayPctRow

/-! ## Helper lemmas -/

theorem indexRaise_eq_none_iff (x : String) (l : List String) :
    indexRaise x l = none ↔ x ∉ l := by
  induction l with
  | nil => simp [indexRaise]
  | cons a as ih =>
    rcases eq_or_ne a x with h | h
    · subst h; simp [indexRaise]
    · simp [indexRaise, h, ih, Ne.symm h]

theorem indexRaise_of_mem (x : String) (l : List String) (h : x ∈ l) :
    ∃ i, indexRaise x l = some i := by
  cases ho : indexRaise x l with
  | none => exact absurd ((indexRaise_eq_none_iff x l).mp ho) (not_not_intro h)
  | some i => exact ⟨i, rfl⟩

theorem getD_append_mid {α : Type} (d : α) (pre : List α) (x : α) (suf : List α) :
    (pre ++ x :: suf).getD pre.length d = x := by
  induction pre with
  | nil => rfl
  | cons a p ih => simpa using ih

theorem set_append_mid {α : Type} (pre : List α) (x v : α) (suf : List α) :
    (pre ++ x :: suf).set pre.length v = pre ++ v :: suf := by
  induction pre with
  | nil => rfl
  | cons a p ih => simp [List.set, ih]

theorem getD_map_lt {α β : Type} (f : α → β) (d : β) (d0 : α) :
    ∀ (l : List α) (i : Nat), i < l.length → (l.map f).getD i d = f (l.getD i d0) := by
  intro l
  induction l with
  | nil => simp
  | cons a as ih =>
    intro i hi
    cases i with
    | zero => rfl
    | succ n => simpa using ih n (by simpa using hi)

theorem appendLoop_overflow (total : Rat) :
    ∀ (tally : List Rat) (idx : Nat) (lines : List (List Rat)), lines.length ≤ idx →
      appendLoop tally total idx lines =
        lines ++ tally.map (fun t => [0, pctGuard t total]) := by
  intro tally
  induction tally with
  | nil => intro idx lines _; simp [appendLoop]
  | cons t ts ih =>
    intro idx lines h
    have hlt : ¬ idx < lines.length := not_lt.mpr h
    simp only [appendLoop, pushLine, if_neg hlt]
    rw [ih (idx + 1) (lines ++ [[0, pctGuard t total]]) (by simp; omega)]
    simp

theorem appendLoop_inrange (total : Rat) :
    ∀ (tally : List Rat) (pre suf : List (List Rat)), suf.length = tally.length →
      appendLoop tally total pre.length (pre ++ suf) =
        pre ++ List.zipWith (fun l t => l ++ [pctGuard t total]) suf tally := by
  intro tally
  induction tally with
  | nil =>
    intro pre suf h
    have : suf = [] := List.eq_nil_of_length_eq_zero h
    subst this
    simp [appendLoop]
  | cons t ts ih =>
    intro pre suf h
    cases suf with
    | nil => simp at h
    | cons l ls =>
      have hlen : pre.length < (pre ++ l :: ls).length := by simp
      simp only [appendLoop, pushLine, if_pos hlen, getD_append_mid, set_append_mid]
      have h2 : ls.length = ts.length := by simpa using h
      have hstep := ih (pre ++ [l ++ [pctGuard t total]]) ls h2
      rw [show pre.length + 1 = (pre ++ [l ++ [pctGuard t total]]).length by simp,
        show pre ++ (l ++ [pctGuard t total]) :: ls =
          (pre ++ [l ++ [pctGuard t total]]) ++ ls by simp, hstep]
      simp

theorem zipWith_append_series_len (total : Rat) (k : Nat) :
    ∀ (suf : List (List Rat)) (tally : List Rat), (∀ l ∈ suf, l.length = k) →
      ∀ l2 ∈ List.zipWith (fun l t => l ++ [pctGuard t total]) suf tally, l2.length = k + 1 := by
  intro suf
  induction suf with
  | nil => simp
  | cons l ls ih =>
    intro tally hl l2 h2
    cases tally with
    | nil => simp [List.zipWith] at h2
    | cons t ts =>
      simp only [List.zipWith, List.mem_cons] at h2
      rcases h2 with h2 | h2
      · subst h2; simp [hl l (by simp)]
      · exact ih ts (fun x hx => hl x (by simp [hx])) l2 h2

theorem foldl_guard_append {α β : Type} (P : α → Prop) [DecidablePred P] (f : α → List β) :
    ∀ (l : List α) (acc : List β),
      l.foldl (fun acc s => if P s then acc ++ f s else acc) acc =
        acc ++ (l.filter (fun s => decide (P s))).flatMap f := by
  intro l
  induction l with
  | nil => intro acc; simp
  | cons a as ih =>
    intro acc
    by_cases h : P a
    · simp [List.foldl_cons, if_pos h, ih, List.filter_cons, h]
    · simp [List.foldl_cons, if_neg h, ih, List.filter_cons, h]

theorem foldl_max_init (vs : List Int) : ∀ v : Int, v ≤ vs.foldl max v := by
  induction vs with
  | nil => intro v; exact le_refl v
  | cons a as ih =>
    intro v
    exact le_trans (le_max_left v a) (ih (max v a))

theorem foldl_max_mem (vs : List Int) : ∀ (v x : Int), x ∈ vs → x ≤ vs.foldl max v := by
  induction vs with
  | nil => intro v x hx; simp at hx
  | cons a as ih =>
    intro v x hx
    rcases List.mem_cons.mp hx with h | h
    · subst h
      exact le_trans (le_max_right v x) (foldl_max_init as (max v x))
    · exact ih (max v a) x h

theorem mem_setAdd_self (s : List String) (x : String) : x ∈ setAdd s x := by
  by_cases h : x ∈ s <;> simp [setAdd, h]

theorem mem_setAdd_of_mem (s : List String) (x y : String) (h : y ∈ s) :
    y ∈ setAdd s x := by
  by_cases hx : x ∈ s <;> simp [setAdd, hx, h]

theorem seedStepCore_mono (sets : List (List String)) (ref unique x : String)
    (h : ∃ s ∈ sets, x ∈ s) : ∃ s2 ∈ seedStepCore sets ref unique, x ∈ s2 := by
  obtain ⟨s, hs, hx⟩ := h
  by_cases hany : ∃ t ∈ sets, ref ∈ t
  · refine ⟨if ref ∈ s then setAdd s unique else s, ?_, ?_⟩
    · simp only [seedStepCore, if_pos hany]
      exact List.mem_map_of_mem _ hs
    · by_cases hr : ref ∈ s <;> simp [hr, mem_setAdd_of_mem _ _ _ hx, hx]
  · refine ⟨s, ?_, hx⟩
    simp only [seedStepCore, if_neg hany]
    exact List.mem_append.mpr (Or.inl hs)

theorem seedRowStep_eq (refIdx uniqueIdx : Nat) (sets : List (List String))
    (row : List String) :
    seedRowStep refIdx uniqueIdx sets row =
      if (row.getD uniqueIdx "").length ≠ 4 then sets
      else seedStepCore sets (row.getD refIdx "") (row.getD uniqueIdx "") := rfl

theorem seedStepCore_pos (sets : List (List String)) (ref unique : String)
    (h : ∃ s ∈ sets, ref ∈ s) :
    seedStepCore sets ref unique =
      sets.map (fun s => if ref ∈ s then setAdd s unique else s) := by
  rw [seedStepCore, if_pos h]

theorem seedStepCore_neg (sets : List (List String)) (ref unique : String)
    (h : ¬ ∃ s ∈ sets, ref ∈ s) :
    seedStepCore sets ref unique = sets ++ [[ref, unique]] := by
  rw [seedStepCore, if_neg h]

theorem seedRowStep_mono (refIdx uniqueIdx : Nat) (sets : List (List String))
    (row : List String) (x : String) (h : ∃ s ∈ sets, x ∈ s) :
    ∃ s2 ∈ seedRowStep refIdx uniqueIdx sets row, x ∈ s2 := by
  rw [seedRowStep_eq]
  by_cases hlen : (row.getD uniqueIdx "").length ≠ 4
  · rw [if_pos hlen]; exact h
  · rw [if_neg hlen]
    exact seedStepCore_mono _ _ _ _ h

theorem seedRowStep_covers (refIdx uniqueIdx : Nat) (sets : List (List String))
    (row : List String) (hlen : (row.getD uniqueIdx "").length = 4) :
    ∃ s ∈ seedRowStep refIdx uniqueIdx sets row, row.getD uniqueIdx "" ∈ s := by
  rw [seedRowStep_eq]
  have hne : ¬ (row.getD uniqueIdx "").length ≠ 4 := fun h => h hlen
  rw [if_neg hne]
  by_cases hany : ∃ t ∈ sets, (row.getD refIdx "") ∈ t
  · obtain ⟨t, ht, hr⟩ := hany
    refine ⟨setAdd t (row.getD uniqueIdx ""), ?_, mem_setAdd_self _ _⟩
    rw [seedStepCore_pos sets _ _ ⟨t, ht, hr⟩]
    have himg : (if (row.getD refIdx "") ∈ t then setAdd t (row.getD uniqueIdx "") else t) =
        setAdd t (row.getD uniqueIdx "") := if_pos hr
    rw [← himg]
    exact List.mem_map_of_mem _ ht
  · refine ⟨[row.getD refIdx "", row.getD uniqueIdx ""], ?_, by simp⟩
    rw [seedStepCore_neg sets _ _ hany]
    simp

theorem foldSeed_mono (refIdx uniqueIdx : Nat) :
    ∀ (rows : List (List String)) (sets : List (List String)) (x : String),
      (∃ s ∈ sets, x ∈ s) →
      ∃ s ∈ List.foldl (seedRowStep refIdx uniqueIdx) sets rows, x ∈ s := by
  intro rows
  induction rows with
  | nil => intro sets x h; simpa using h
  | cons a rest ih =>
    intro sets x h
    exact ih (seedRowStep refIdx uniqueIdx sets a) x
      (seedRowStep_mono refIdx uniqueIdx sets a x h)

theorem foldSeed_covers (refIdx uniqueIdx : Nat) :
    ∀ (rows : List (List String)) (sets : List (List String)) (r : List String),
      r ∈ rows → (r.getD uniqueIdx "").length = 4 →
      ∃ s ∈ List.foldl (seedRowStep refIdx uniqueIdx) sets rows, r.getD uniqueIdx "" ∈ s := by
  intro rows
  induction rows with
  | nil => intro sets r hr; simp at hr
  | cons a rest ih =>
    intro sets r hr hlen
    rcases List.mem_cons.mp hr with h | h
    · subst h
      exact foldSeed_mono refIdx uniqueIdx rest _ _
        (seedRowStep_covers refIdx uniqueIdx sets r hlen)
    · exact ih (seedRowStep refIdx uniqueIdx sets a) r h hlen

theorem radioStep_none (answers : List String) (st : List Nat × List (List Rat))
    (value : String) (h : indexRaise value answers = none) :
    radioStep answers st value = none := by
  unfold radioStep
  rw [h]

theorem radioStep_some (answers : List String) (st : List Nat × List (List Rat))
    (value : String) (i : Nat) (hi : indexRaise value answers = some i) :
    radioStep answers st value = some (st.1.set i (st.1.getD i 0 + 1),
      appendLoop ((st.1.set i (st.1.getD i 0 + 1)).map natRat)
        (natRat (st.1.set i (st.1.getD i 0 + 1)).sum) 0 st.2) := by
  unfold radioStep
  rw [hi]

theorem radio_foldlM_err (answers : List String) :
    ∀ (rows : List String) (st : List Nat × List (List Rat)),
      (∃ r ∈ rows, r ∉ answers) →
      List.foldlM (radioStep answers) st rows = none := by
  intro rows
  induction rows with
  | nil =>
    rintro st ⟨r, hr, _⟩
    simp at hr
  | cons a rest ih =>
    rintro st ⟨r, hr, hnot⟩
    by_cases ha : a ∈ answers
    · obtain ⟨i, hi⟩ := indexRaise_of_mem a answers ha
      have hrest : r ∈ rest := by
        rcases List.mem_cons.mp hr with h | h
        · exact absurd (h ▸ ha) hnot
        · exact h
      rw [List.foldlM_cons, radioStep_some answers st a i hi]
      exact ih _ ⟨r, hrest, hnot⟩
    · rw [List.foldlM_cons,
        radioStep_none answers st a ((indexRaise_eq_none_iff a answers).mpr ha)]
      rfl

theorem radio_foldlM_lengths (answers : List String) :
    ∀ (rows : List String) (st : List Nat × List (List Rat)) (k : Nat),
      (∀ r ∈ rows, r ∈ answers) →
      st.1.length = answers.length →
      st.2.length = answers.length →
      (∀ l ∈ st.2, l.length = k) →
      ∃ st2, List.foldlM (radioStep answers) st rows = some st2 ∧
        st2.1.length = answers.length ∧
        st2.2.length = answers.length ∧
        ∀ l ∈ st2.2, l.length = k + rows.length := by
  intro rows
  induction rows with
  | nil =>
    intro st k _ h1 h2 h3
    exact ⟨st, rfl, h1, h2, by simpa using h3⟩
  | cons r rest ih =>
    intro st k hmem h1 h2 h3
    obtain ⟨i, hi⟩ := indexRaise_of_mem r answers (hmem r (by simp))
    rw [List.foldlM_cons, radioStep_some answers st r i hi]
    have hlen1 : (st.1.set i (st.1.getD i 0 + 1)).length = answers.length := by
      simpa using h1
    have hmaplen : ((st.1.set i (st.1.getD i 0 + 1)).map natRat).length
        = answers.length := by rw [List.length_map]; exact hlen1
    have hzip := appendLoop_inrange
      (natRat (st.1.set i (st.1.getD i 0 + 1)).sum)
      ((st.1.set i (st.1.getD i 0 + 1)).map natRat)
      [] st.2 (by rw [h2, hmaplen])
    simp only [List.length_nil, List.nil_append] at hzip
    have hlines : (appendLoop ((st.1.set i (st.1.getD i 0 + 1)).map natRat)
        (natRat (st.1.set i (st.1.getD i 0 + 1)).sum) 0 st.2).length
        = answers.length := by
      rw [hzip, List.length_zipWith, h2, hmaplen]
      exact min_self _
    have hmemlines : ∀ l ∈ appendLoop ((st.1.set i (st.1.getD i 0 + 1)).map natRat)
        (natRat (st.1.set i (st.1.getD i 0 + 1)).sum) 0 st.2, l.length = k + 1 := by
      rw [hzip]
      exact zipWith_append_series_len _ k st.2 _ h3
    obtain ⟨st2, hfold, ha, hb, hc⟩ := ih
      (st.1.set i (st.1.getD i 0 + 1),
        appendLoop ((st.1.set i (st.1.getD i 0 + 1)).map natRat)
          (natRat (st.1.set i (st.1.getD i 0 + 1)).sum) 0 st.2)
      (k + 1) (fun x hx => hmem x (by simp [hx])) hlen1 hlines hmemlines
    refine ⟨st2, ?_, ha, hb, ?_⟩
    · simpa using hfold
    · intro l hl
      rw [hc l hl]
      simp [List.length_cons]
      omega

/-! ## Claim theorems -/

/-- C1 (amended): when at least one existing candidate set contains the
ref of a valid row, unique is inserted into every set that contains ref
(not only the first in creation order), the number of sets is unchanged,
and sets not containing ref are unchanged; when no set contains ref a new
set with ref and unique is appended. -/
theorem seedGrouper_insert_all_matching (sets : List (List String)) (ref unique : String) :
    ((∃ s ∈ sets, ref ∈ s) →
      (seedStepCore sets ref unique).length = sets.length ∧
      ∀ i, i < sets.length →
        (ref ∈ sets.getD i [] → unique ∈ (seedStepCore sets ref unique).getD i []) ∧
        (ref ∉ sets.getD i [] → (seedStepCore sets ref unique).getD i [] = sets.getD i [])) ∧
    (¬ (∃ s ∈ sets, ref ∈ s) → seedStepCore sets ref unique = sets ++ [[ref, unique]]) := by
  constructor
  · intro hany
    rw [seedStepCore_pos sets ref unique hany]
    refine ⟨by simp, ?_⟩
    intro i hi
    rw [getD_map_lt _ [] [] sets i hi]
    constructor
    · intro hr
      rw [if_pos hr]
      exact mem_setAdd_self _ _
    · intro hr
      rw [if_neg hr]
  · intro hany
    exact seedStepCore_neg sets ref unique hany

/-- C1 witness: with sets that both contain ref bbbb, the step keeps two
sets and the second set receives unique eeee as well. -/
theorem seedGrouper_insert_all_matching_witness :
    (seedStepCore [["a", "bbbb"], ["x", "bbbb"]] "bbbb" "eeee").length = 2 ∧
    "eeee" ∈ (seedStepCore [["a", "bbbb"], ["x", "bbbb"]] "bbbb" "eeee").getD 1 [] := by
  have h := (seedGrouper_insert_all_matching [["a", "bbbb"], ["x", "bbbb"]] "bbbb" "eeee").1
    ⟨["a", "bbbb"], by decide, by decide⟩
  exact ⟨h.1, (h.2 1 (by decide)).1 (by decide)⟩

/-- C1 counterexample: three rows whose third row has ref bbbb contained
in both earlier sets; its unique eeee is inserted into both sets, so it is
not inserted into exactly one set (the first in creation order) and into
no other. -/
theorem seedGrouper_first_match_counterexample :
    "eeee" ∈ (buildSeedSets 0 1 [["a", "bbbb"], ["x", "bbbb"], ["bbbb", "eeee"]]).getD 0 [] ∧
    "eeee" ∈ (buildSeedSets 0 1 [["a", "bbbb"], ["x", "bbbb"], ["bbbb", "eeee"]]).getD 1 [] ∧
    (buildSeedSets 0 1 [["a", "bbbb"], ["x", "bbbb"], ["bbbb", "eeee"]]).length = 2 := by
  decide

/-- C2 (amended): every row whose unique value has length 4 has its unique
contained in at least one produced candidate set; the produced sets are
not pairwise disjoint in general, so exactly-one containment fails. -/
theorem seedGrouper_coverage (refIdx uniqueIdx : Nat) (rows : List (List String))
    (r : List String) (hr : r ∈ rows) (hlen : (r.getD uniqueIdx "").length = 4) :
    ∃ s ∈ buildSeedSets refIdx uniqueIdx rows, r.getD uniqueIdx "" ∈ s :=
  foldSeed_covers refIdx uniqueIdx rows [] r hr hlen

/-- C2 witness: coverage at a one-row table. -/
theorem seedGrouper_coverage_witness :
    ∃ s ∈ buildSeedSets 0 1 [["a", "bbbb"]], "bbbb" ∈ s :=
  seedGrouper_coverage 0 1 [["a", "bbbb"]] ["a", "bbbb"] (by decide) (by decide)

/-- C2 counterexample: the produced sets are not pairwise disjoint: bbbb
(the unique of the first two valid rows) lies in both produced sets, which
are distinct, and the valid third row has its unique eeee in two sets
rather than exactly one. -/
theorem seedGrouper_disjoint_counterexample :
    "bbbb" ∈ (buildSeedSets 0 1 [["a", "bbbb"], ["x", "bbbb"], ["bbbb", "eeee"]]).getD 0 [] ∧
    "bbbb" ∈ (buildSeedSets 0 1 [["a", "bbbb"], ["x", "bbbb"], ["bbbb", "eeee"]]).getD 1 [] ∧
    (buildSeedSets 0 1 [["a", "bbbb"], ["x", "bbbb"], ["bbbb", "eeee"]]).getD 0 [] ≠
      (buildSeedSets 0 1 [["a", "bbbb"], ["x", "bbbb"], ["bbbb", "eeee"]]).getD 1 [] := by
  decide

/-- C3 (amended): in the radio, checkbox and numerical variants every
percentage with a zero denominator is defined as 0.0 through the local
guard; in the array variant the percentage computation is unguarded and a
zero column total is a raised ZeroDivisionError, modelled none. -/
theorem division_zero_guard :
    (∀ t : Rat, pctGuard t 0 = 0) ∧
    ∀ t : List Nat, t.sum = 0 → arrayPctRow t = none := by
  constructor
  · intro t
    simp [pctGuard]
  · intro t ht
    unfold arrayPctRow
    rw [if_pos ht]

/-- C3 witness: the guard at denominator zero and the array failure on an
all-zero column tally. -/
theorem division_zero_guard_witness :
    pctGuard 5 0 = 0 ∧ arrayPctRow [0, 0] = none :=
  ⟨division_zero_guard.1 5, division_zero_guard.2 [0, 0] (by decide)⟩

/-- C3 counterexample: on a table with a header column and no data rows,
the array variant reaches float(x)/total with total zero and raises
(result none) instead of producing the 0.0 breakdown. -/
theorem array_zero_total_counterexample :
    plot_array_boxes ["A1"] [["q [SQ1]"]] = none ∧
    plot_array_boxes ["A1"] [["q [SQ1]"]] ≠ some [[0]] := by
  decide

/-- C4 (amended): in the end-to-end scenario the third row has unique
value seed1 of length 5, so it is skipped by the grouper; rows one and two
form the single set with seed1, aaaa, bbbb, and rowsForSeed on seed1
returns the header followed by rows one and two only (row three has ref
star, which lies in no set). -/
theorem scenario_rows_for_seed1 :
    buildSeedSets (listIndexD "ref" ["city", "ref", "unique"])
        (listIndexD "unique" ["city", "ref", "unique"])
        [["A1", "seed1", "aaaa"], ["A2", "seed1", "bbbb"], ["A1", "*", "seed1"]] =
      [["seed1", "aaaa", "bbbb"]] ∧
    filter_rows_by_seed ["seed1"] "seed1"
        [["city", "ref", "unique"], ["A1", "seed1", "aaaa"], ["A2", "seed1", "bbbb"],
          ["A1", "*", "seed1"]] =
      [["city", "ref", "unique"], ["A1", "seed1", "aaaa"], ["A2", "seed1", "bbbb"]] := by
  decide

/-- C4 counterexample: the scenario output is not the header followed by
all three data rows, and the third row is absent from it. -/
theorem scenario_rows_for_seed1_counterexample :
    filter_rows_by_seed ["seed1"] "seed1"
        [["city", "ref", "unique"], ["A1", "seed1", "aaaa"], ["A2", "seed1", "bbbb"],
          ["A1", "*", "seed1"]] ≠
      [["city", "ref", "unique"], ["A1", "seed1", "aaaa"], ["A2", "seed1", "bbbb"],
        ["A1", "*", "seed1"]] ∧
    ["A1", "*", "seed1"] ∉ filter_rows_by_seed ["seed1"] "seed1"
        [["city", "ref", "unique"], ["A1", "seed1", "aaaa"], ["A2", "seed1", "bbbb"],
          ["A1", "*", "seed1"]] := by
  decide

/-- C5 (amended): in the radio variant on n rows with n at least 1 and all
answer values inside the computed domain, one series is produced per
answer code and each series has length n + 1: a leading 0.0 created on the
first iteration, then one cumulative share per processed row. -/
theorem radio_series_lengths (qtype : String) (codes : List String)
    (mandatory other : Bool) (rows : List String)
    (hne : rows ≠ [])
    (hmem : ∀ r ∈ rows, r ∈ answerDomain qtype codes mandatory other) :
    (plot_convergence_radio qtype codes mandatory other rows).map
        (fun st => st.2.map List.length) =
      some (List.replicate (answerDomain qtype codes mandatory other).length
        (rows.length + 1)) := by
  cases rows with
  | nil => exact absurd rfl hne
  | cons r rest =>
    obtain ⟨i, hi⟩ := indexRaise_of_mem r _ (hmem r (by simp))
    have hunfold : plot_convergence_radio qtype codes mandatory other (r :: rest) =
        List.foldlM (radioStep (answerDomain qtype codes mandatory other))
          (List.replicate (answerDomain qtype codes mandatory other).length 0,
            ([] : List (List Rat))) (r :: rest) := rfl
    rw [hunfold, List.foldlM_cons,
      radioStep_some (answerDomain qtype codes mandatory other) _ r i hi]
    set tally1 := ((List.replicate (answerDomain qtype codes mandatory other).length 0,
      ([] : List (List Rat))).1.set i
        ((List.replicate (answerDomain qtype codes mandatory other).length 0,
          ([] : List (List Rat))).1.getD i 0 + 1)) with htally1
    have hlen1 : tally1.length = (answerDomain qtype codes mandatory other).length := by
      rw [htally1]
      simp
    have hover := appendLoop_overflow (natRat tally1.sum) (tally1.map natRat) 0 [] (by simp)
    have hlineslen : (appendLoop (tally1.map natRat) (natRat tally1.sum) 0 []).length =
        (answerDomain qtype codes mandatory other).length := by
      rw [hover]
      simpa using hlen1
    have hlinesmem : ∀ l ∈ appendLoop (tally1.map natRat) (natRat tally1.sum) 0 [],
        l.length = 2 := by
      rw [hover]
      intro l hl
      simp only [List.nil_append, List.mem_map] at hl
      obtain ⟨t, _, rfl⟩ := hl
      rfl
    obtain ⟨st2, hfold, ha, hb, hc⟩ := radio_foldlM_lengths
      (answerDomain qtype codes mandatory other) rest
      (tally1, appendLoop (tally1.map natRat) (natRat tally1.sum) 0 []) 2
      (fun x hx => hmem x (by simp [hx])) hlen1 hlineslen hlinesmem
    have hbind : (some (tally1, appendLoop (tally1.map natRat) (natRat tally1.sum) 0 []) >>=
        fun init => List.foldlM (radioStep (answerDomain qtype codes mandatory other))
          init rest) = some st2 := hfold
    rw [hbind, Option.map_some']
    congr 1
    rw [List.eq_replicate_iff]
    refine ⟨by simpa using hb, ?_⟩
    intro b hbmem
    obtain ⟨l, hl, rfl⟩ := List.mem_map.mp hbmem
    rw [hc l hl, List.length_cons]
    omega

/-- C5 witness: one in-domain row yields one series of length 2. -/
theorem radio_series_lengths_witness :
    (plot_convergence_radio "L" ["A1"] true false ["A1"]).map
        (fun st => st.2.map List.length) =
      some (List.replicate (answerDomain "L" ["A1"] true false).length
        (["A1"].length + 1)) :=
  radio_series_lengths "L" ["A1"] true false ["A1"] (by decide) (by decide)

/-- C5 counterexample: after processing a single row, the produced series
has length 2, not 1 as the claim states, because the first iteration
creates each series as the pair 0.0 followed by the first share. -/
theorem radio_series_lengths_counterexample :
    (plot_convergence_radio "L" ["A1"] true false ["A1"]).map
        (fun st => st.2.map List.length) = some [2] ∧
    (plot_convergence_radio "L" ["A1"] true false ["A1"]).map
        (fun st => st.2.map List.length) ≠ some [1] := by
  decide

/-- C6 (amended): the wildcard query returns the header followed by, for
each candidate set in creation order whose elements avoid the configured
main seeds, all data rows whose ref lies in that set, in original table
order within each set; a row whose ref lies in several qualifying sets
appears once per such set, so global original order and at-most-once fail. -/
theorem wildcard_rows_by_set (main_seeds : List String) (header : List String)
    (rows : List (List String)) :
    filter_rows_by_seed main_seeds "*" (header :: rows) =
      header ::
        ((buildSeedSets (listIndexD "ref" header) (listIndexD "unique" header) rows).filter
            (fun s => decide (s.inter main_seeds = []))).flatMap
          (fun s => rows.filter (fun r => decide (r.getD (listIndexD "ref" header) "" ∈ s))) := by
  have hL : filter_rows_by_seed main_seeds "*" (header :: rows) =
      header :: (buildSeedSets (listIndexD "ref" header) (listIndexD "unique" header)
        rows).foldl
        (fun acc s => if s.inter main_seeds = [] then
            acc ++ rows.filter (fun r => decide (r.getD (listIndexD "ref" header) "" ∈ s))
          else acc) [] := rfl
  have h := foldl_guard_append (fun s : List String => s.inter main_seeds = [])
    (fun s => rows.filter (fun r => decide (r.getD (listIndexD "ref" header) "" ∈ s)))
    (buildSeedSets (listIndexD "ref" header) (listIndexD "unique" header) rows) []
  rw [List.nil_append] at h
  rw [hL, h]

/-- C6 counterexample: two overlapping candidate sets both avoid the main
seeds; the wildcard output lists the third row twice (once per qualifying
set containing its ref) and not in original table order. -/
theorem wildcard_rows_by_set_counterexample :
    filter_rows_by_seed ["zzzz"] "*"
        [["ref", "unique"], ["a", "bbbb"], ["x", "bbbb"], ["bbbb", "eeee"]] =
      [["ref", "unique"], ["a", "bbbb"], ["bbbb", "eeee"], ["x", "bbbb"],
        ["bbbb", "eeee"]] ∧
    filter_rows_by_seed ["zzzz"] "*"
        [["ref", "unique"], ["a", "bbbb"], ["x", "bbbb"], ["bbbb", "eeee"]] ≠
      [["ref", "unique"], ["a", "bbbb"], ["x", "bbbb"], ["bbbb", "eeee"]] := by
  decide

/-- C7 (confirmed): with bucket width 5, floor 10 and ceiling 69, a table
containing the value 69 yields 12 buckets and the row step on 69 tallies
bucket index 11, the last one; the step on 70 and the step on 9 leave the
state unchanged, excluding those values entirely. -/
theorem numeric_bucket_edges (values : List Int) (st : List Nat × List (List Rat))
    (h69 : 69 ∈ values) :
    numBucketCount values = 12 ∧
    (numericStep st 69).1 = st.1.set 11 (st.1.getD 11 0 + 1) ∧
    numericStep st 70 = st ∧
    numericStep st 9 = st := by
  refine ⟨?_, ?_, ?_, ?_⟩
  · cases values with
    | nil => simp at h69
    | cons v vs =>
      have hle : (69 : Int) ≤ vs.foldl max v := by
        rcases List.mem_cons.mp h69 with h | h
        · subst h
          exact foldl_max_init vs 69
        · exact foldl_max_mem vs v 69 h
      show (min (vs.foldl max v) 69 - 10).fdiv 5 + 1 = 12
      rw [min_eq_right hle]
      decide
  · have hc : ¬((69 : Int) > 69 ∨ (69 : Int) < 10) := by decide
    have h11 : (((69 : Int) - 10).fdiv 5).toNat = 11 := by decide
    simp only [numericStep, if_neg hc, h11]
  · have hc : ((70 : Int) > 69 ∨ (70 : Int) < 10) := by decide
    unfold numericStep
    rw [if_pos hc]
  · have hc : ((9 : Int) > 69 ∨ (9 : Int) < 10) := by decide
    unfold numericStep
    rw [if_pos hc]

/-- C7 witness: the edge behavior at the concrete table containing only 69
and the zeroed 12-bucket state. -/
theorem numeric_bucket_edges_witness :
    numBucketCount [69] = 12 ∧
    (numericStep (List.replicate 12 0, ([] : List (List Rat))) 69).1 =
      (List.replicate 12 (0 : Nat)).set 11 ((List.replicate 12 (0 : Nat)).getD 11 0 + 1) ∧
    numericStep (List.replicate 12 0, ([] : List (List Rat))) 70 =
      (List.replicate 12 0, ([] : List (List Rat))) ∧
    numericStep (List.replicate 12 0, ([] : List (List Rat))) 9 =
      (List.replicate 12 0, ([] : List (List Rat))) :=
  numeric_bucket_edges [69] (List.replicate 12 0, ([] : List (List Rat))) (by decide)

/-- C8 (confirmed): inserting a row whose cells all clean to integer zero
at any position leaves the checkbox output series unchanged, because such
a row is skipped before it can touch the tally or the series. -/
theorem checkbox_zero_row (header : List String) (rows1 rows2 : List (List String))
    (z : List String) (hz : ∀ c ∈ z, clean_integer c = 0) :
    plot_convergence_checkbox (header :: (rows1 ++ z :: rows2)) =
      plot_convergence_checkbox (header :: (rows1 ++ rows2)) := by
  have hstep : ∀ st, checkboxStep st z = st := by
    intro st
    have hsum : (z.map clean_integer).sum = 0 := by
      refine List.sum_eq_zero ?_
      intro x hx
      obtain ⟨c, hc, rfl⟩ := List.mem_map.mp hx
      exact hz c hc
    unfold checkboxStep
    rw [if_pos hsum]
  show (List.foldl checkboxStep (List.replicate header.length 0, [])
      (rows1 ++ z :: rows2)).2 =
    (List.foldl checkboxStep (List.replicate header.length 0, []) (rows1 ++ rows2)).2
  rw [List.foldl_append, List.foldl_append, List.foldl_cons, hstep]

/-- C8 witness: a zero row inserted after a one row leaves the output
unchanged. -/
theorem checkbox_zero_row_witness :
    plot_convergence_checkbox [["q [SQ1]"], ["1"], ["0"]] =
      plot_convergence_checkbox [["q [SQ1]"], ["1"]] :=
  checkbox_zero_row ["q [SQ1]"] [["1"]] [] ["0"] (by decide)

/-- C9 (confirmed): whenever some row carries an answer value outside the
computed answer domain, the radio variant aborts with the lookup error of
list.index (result none) instead of producing output. -/
theorem radio_out_of_domain (qtype : String) (codes : List String)
    (mandatory other : Bool) (rows : List String)
    (h : ∃ r ∈ rows, r ∉ answerDomain qtype codes mandatory other) :
    plot_convergence_radio qtype codes mandatory other rows = none :=
  radio_foldlM_err (answerDomain qtype codes mandatory other) rows
    (List.replicate (answerDomain qtype codes mandatory other).length 0, []) h

/-- C9 witness: the value ZZ is outside the domain of codes A1, so the
variant fails. -/
theorem radio_out_of_domain_witness :
    plot_convergence_radio "L" ["A1"] true false ["ZZ"] = none :=
  radio_out_of_domain "L" ["A1"] true false ["ZZ"] ⟨"ZZ", by decide, by decide⟩

/-- C10 (confirmed): a row whose unique value does not have exactly 4
characters changes nothing in candidate-set construction, yet the row is
still returned by the non-wildcard seed query whenever its ref lies in the
selected set. -/
theorem invalid_row_still_queried (header : List String)
    (rows1 rows2 : List (List String)) (r : List String) (seed : String)
    (main_seeds : List String) (s : List String)
    (hlen : (r.getD (listIndexD "unique" header) "").length ≠ 4) :
    buildSeedSets (listIndexD "ref" header) (listIndexD "unique" header)
        (rows1 ++ r :: rows2) =
      buildSeedSets (listIndexD "ref" header) (listIndexD "unique" header)
        (rows1 ++ rows2) ∧
    (seed ≠ "*" →
      (buildSeedSets (listIndexD "ref" header) (listIndexD "unique" header)
          (rows1 ++ r :: rows2)).find? (fun t => decide (seed ∈ t)) = some s →
      r.getD (listIndexD "ref" header) "" ∈ s →
      r ∈ filter_rows_by_seed main_seeds seed (header :: (rows1 ++ r :: rows2))) := by
  constructor
  · unfold buildSeedSets
    rw [List.foldl_append, List.foldl_append, List.foldl_cons]
    congr 1
    rw [seedRowStep_eq, if_pos hlen]
  · intro hseed hfind href
    simp only [filter_rows_by_seed]
    rw [if_neg hseed, hfind]
    refine List.mem_cons.mpr (Or.inr ?_)
    refine List.mem_filter.mpr ⟨by simp, ?_⟩
    exact decide_eq_true href

/-- C10 witness: a row with the two-character unique xy is skipped by set
construction but returned by the seed1 query because its ref seed1 lies in
the selected set. -/
theorem invalid_row_still_queried_witness :
    buildSeedSets (listIndexD "ref" ["ref", "unique"])
        (listIndexD "unique" ["ref", "unique"])
        ([["seed1", "aaaa"]] ++ ["seed1", "xy"] :: []) =
      buildSeedSets (listIndexD "ref" ["ref", "unique"])
        (listIndexD "unique" ["ref", "unique"]) ([["seed1", "aaaa"]] ++ []) ∧
    ["seed1", "xy"] ∈ filter_rows_by_seed [] "seed1"
      (["ref", "unique"] :: ([["seed1", "aaaa"]] ++ ["seed1", "xy"] :: [])) := by
  have h := invalid_row_still_queried ["ref", "unique"] [["seed1", "aaaa"]] []
    ["seed1", "xy"] "seed1" [] ["seed1", "aaaa"] (by decide)
  exact ⟨h.1, h.2 (by decide) (by decide) (by decide)⟩
